import Mathlib

/-!
Verification development for the rubbish-geo pickup-assignment and
blockface-statistics engine.

The definitions below are a shallow embedding of the write path and query
path of python/rubbish_geo_client/rubbish_geo_client/ops.py together with
the pieces of the common package (orm.py, the migrations) that constrain
it.  Python floats are modelled as exact rationals; the external
collaborators (the PostGIS-backed ordered centerline query, the shapely
projection, interpolation and distance primitives, and the scipy
Shapiro-Wilk p-value) are modelled as explicit parameters of an
environment record, as the spec directs for out-of-scope collaborators.

Because the standard library arithmetic on the rational number type does
not reduce inside the kernel, the embedding computes with small wrappers
(qadd, qsub, qmul, qdiv, qofNat) that are defined through mkRat and are
proved below to agree with the field operations of the rationals.
-/

set_option maxRecDepth 8000

deriving instance DecidableEq for Except

namespace RubbishGeo

/-- Kernel-evaluable addition on the rationals; proved equal to the field
addition in qadd_eq. -/
def qadd (a b : ℚ) : ℚ := mkRat (a.num * b.den + b.num * a.den) (a.den * b.den)

/-- Kernel-evaluable subtraction on the rationals. -/
def qsub (a b : ℚ) : ℚ := mkRat (a.num * b.den - b.num * a.den) (a.den * b.den)

/-- Kernel-evaluable multiplication on the rationals. -/
def qmul (a b : ℚ) : ℚ := mkRat (a.num * b.num) (a.den * b.den)

/-- Kernel-evaluable absolute value on the rationals. -/
def qabs (a : ℚ) : ℚ := mkRat |a.num| a.den

/-- The rational n / d for integers n and d, through mkRat. -/
def intFrac (n d : ℤ) : ℚ := if d < 0 then mkRat (-n) (-d).toNat else mkRat n d.toNat

/-- Kernel-evaluable division on the rationals. -/
def qdiv (a b : ℚ) : ℚ := intFrac (a.num * b.den) (a.den * b.num)

/-- Kernel-evaluable embedding of a natural number into the rationals. -/
def qofNat (n : ℕ) : ℚ := mkRat n 1

theorem qadd_eq (a b : ℚ) : qadd a b = a + b := by
  rw [qadd, Rat.add_def, Rat.normalize_eq_mkRat]

theorem qsub_eq (a b : ℚ) : qsub a b = a - b := by
  rw [qsub, Rat.sub_def, Rat.normalize_eq_mkRat]

theorem qmul_eq (a b : ℚ) : qmul a b = a * b := by
  rw [qmul, Rat.mul_def, Rat.normalize_eq_mkRat]

theorem intFrac_eq (n d : ℤ) : intFrac n d = (n : ℚ) / (d : ℚ) := by
  rw [intFrac]
  split
  · rename_i h
    rw [Rat.mkRat_eq_div]
    have hd : (((-d).toNat : ℕ) : ℚ) = -(d : ℚ) := by
      have h2 : ((-d).toNat : ℤ) = -d := Int.toNat_of_nonneg (by omega)
      calc (((-d).toNat : ℕ) : ℚ) = ((((-d).toNat : ℕ) : ℤ) : ℚ) := by norm_cast
        _ = ((-d : ℤ) : ℚ) := by rw [h2]
        _ = -(d : ℚ) := by push_cast; ring
    rw [hd]
    push_cast
    rw [neg_div_neg_eq]
  · rename_i h
    rw [Rat.mkRat_eq_div]
    have hd : ((d.toNat : ℕ) : ℚ) = (d : ℚ) := by
      have h2 : (d.toNat : ℤ) = d := Int.toNat_of_nonneg (by omega)
      calc ((d.toNat : ℕ) : ℚ) = (((d.toNat : ℕ) : ℤ) : ℚ) := by norm_cast
        _ = (d : ℚ) := by rw [h2]
    rw [hd]

theorem qdiv_eq (a b : ℚ) : qdiv a b = a / b := by
  rw [qdiv, intFrac_eq]
  rcases eq_or_ne b 0 with hb | hb
  · subst hb
    simp
  · have hbn : (b.num : ℚ) ≠ 0 := by
      exact_mod_cast Rat.num_ne_zero.mpr hb
    have had : ((a.den : ℕ) : ℚ) ≠ 0 := by
      exact_mod_cast a.den_nz
    have hbd : ((b.den : ℕ) : ℚ) ≠ 0 := by
      exact_mod_cast b.den_nz
    conv_rhs => rw [← Rat.num_div_den a, ← Rat.num_div_den b]
    field_simp

theorem qofNat_eq (n : ℕ) : qofNat n = (n : ℚ) := by
  rw [qofNat, Rat.mkRat_eq_div]
  simp

/-- The coverage threshold of the matching loop: one half, written in a
kernel-evaluable form. -/
def covThreshold : ℚ := mkRat 1 2

/-- The p-value threshold of the curb-inference normality test: 0.05. -/
def pThreshold : ℚ := mkRat 1 20

/-- The offset 0.01 used to sample a local tangent around a linear
reference in the side-of-centerline test. -/
def lrEps : ℚ := mkRat 1 100

theorem covThreshold_eq : covThreshold = 1 / 2 := by
  rw [covThreshold, Rat.mkRat_eq_div]
  norm_num

theorem pThreshold_eq : pThreshold = 1 / 20 := by
  rw [pThreshold, Rat.mkRat_eq_div]
  norm_num

/-- Planar point, shapely (x, y) order. -/
abbrev Q2 : Type := ℚ × ℚ

/-- Side of the street, the closed curb enum of orm.py. -/
inductive Side
  | left
  | right
  | middle
deriving DecidableEq

/-- Rubbish type tags.  The six named constructors mirror RUBBISH_TYPES in
the initialize-db migration; the extra constructor stands for any string
outside the closed set, so that invalid enum values are expressible. -/
inductive RubbishType
  | tobacco
  | paper
  | plastic
  | other
  | food
  | glass
  | unknown (code : ℕ)
deriving DecidableEq

/-- The closed set of valid rubbish types, from the migration RUBBISH_TYPES
list (the consts module itself is not part of the sources). -/
def RUBBISH_TYPES : List RubbishType :=
  [.tobacco, .paper, .plastic, .other, .food, .glass]

/-- Value found under the curb key of an input pickup dict: the Python
None, a valid side string, or any other (invalid) value. -/
inductive CurbVal
  | null
  | val (s : Side)
  | bad
deriving DecidableEq

/-- Value found under the geometry key of an input pickup dict: either a
shapely Point or a geometry of some other type. -/
inductive GeomVal
  | point (x y : ℚ)
  | notPoint
deriving DecidableEq

/-- An input pickup dict.  Every field is optional because the source
checks key presence one attribute at a time; note that the validation loop
of write_pickups never checks the firebase-run-id key. -/
structure RawPickup where
  firebase_id : Option ℕ
  firebase_run_id : Option ℕ
  rtype : Option RubbishType
  timestamp : Option ℤ
  curb : Option CurbVal
  geometry : Option GeomVal
deriving DecidableEq

/-- A pickup dict after the validation loop: geometry is a point, the
timestamp is an integer in range, the curb is a valid side or None and the
rubbish type is in the closed set.  The run id stays optional because it
is never validated. -/
structure VPickup where
  firebase_id : ℕ
  firebase_run_id : Option ℕ
  rtype : RubbishType
  timestamp : ℤ
  curb : Option Side
  geometry : Q2
deriving DecidableEq

/-- Validation failure causes, in the order the source tests them. -/
inductive VError
  | missingAttr
  | badGeometryType
  | timestampTooLarge
  | badCurb
  | badType
deriving DecidableEq

/-- The per-pickup validation loop body of write_pickups (ops.py lines
170-208).  Checks, in source order: presence of the firebase-id, type,
timestamp, curb and geometry keys (the firebase-run-id key is absent from
the checked list), the geometry being a Point, the timestamp being at most
five minutes (300 seconds) ahead of server time, the curb value being a
valid side or None, and the type being in the closed rubbish-type set. -/
def validate_pickup (now : ℤ) (p : RawPickup) : Except VError VPickup :=
  match p.firebase_id with
  | none => .error .missingAttr
  | some fid =>
    match p.rtype with
    | none => .error .missingAttr
    | some ty =>
      match p.timestamp with
      | none => .error .missingAttr
      | some ts =>
        match p.curb with
        | none => .error .missingAttr
        | some cv =>
          match p.geometry with
          | none => .error .missingAttr
          | some .notPoint => .error .badGeometryType
          | some (.point x y) =>
            if ts > now + 300 then .error .timestampTooLarge
            else
              match cv with
              | .bad => .error .badCurb
              | .null =>
                if ty ∈ RUBBISH_TYPES then
                  .ok ⟨fid, p.firebase_run_id, ty, ts, none, (x, y)⟩
                else .error .badType
              | .val s =>
                if ty ∈ RUBBISH_TYPES then
                  .ok ⟨fid, p.firebase_run_id, ty, ts, some s, (x, y)⟩
                else .error .badType

/-- A centerlines table row: id, precomputed length in meters, geometry as
the coordinate list of a linestring (orm.py Centerline; the zone and name
columns play no role in the claims). -/
structure Centerline where
  id : ℕ
  length_in_meters : ℚ
  geometry : List Q2
deriving DecidableEq

/-- A blockface-statistics table row (orm.py BlockfaceStatistic).  The
curb column is declared NOT NULL in the schema; an optional value is used
here so that the attempt to persist a Python None can be expressed and
rejected at commit time. -/
structure BlockfaceStatisticRow where
  centerline_id : ℕ
  curb : Option Side
  rubbish_per_meter : ℚ
  num_runs : ℕ
deriving DecidableEq

/-- The external shapely geometry primitives used by ops.py: normalized
linear-reference projection of a point onto a linestring, normalized
interpolation along a linestring, and point-to-linestring distance.  These
are collaborators outside the repository sources, so they are parameters
of the model; a faithful computable instance for axis-parallel polylines
is provided further below. -/
structure GeomBackend where
  project : List Q2 → Q2 → ℚ
  interpolate : List Q2 → ℚ → Q2
  dist : List Q2 → Q2 → ℚ

/-- The database and statistics environment of one write_pickups call.
The ranked field models the PostGIS order-by-distance centerline query:
for a query point it yields all centerlines ordered by distance.  The
shapiro field models the scipy Shapiro-Wilk p-value. -/
structure Env where
  ranked : Q2 → List Centerline
  stats : List BlockfaceStatisticRow
  backend : GeomBackend
  shapiro : List ℚ → ℚ

/-- Failure modes of the modelled write path, each corresponding to an
exception the Python code can raise. -/
inductive Err
  | validation (e : VError)
  | rankTooLarge
  | noCenterlines
  | rankBeyondMatches
  | invalidRun
  | keyError
  | zeroDivision
  | notNullViolation
  | multipleResults
  | sectorNotFound
  | fuelExhausted
deriving DecidableEq

/-- The nearest-centerline-by-rank query (ops.py lines 60-125).  The
source first refuses rank greater than 100, then takes the 100 nearest
centerlines, errors when that list is empty or when the rank is not below
its length, and otherwise returns the rank-th nearest centerline.  The
distance checks in the source only emit warnings and do not affect the
returned value, so they are omitted. -/
def nearest_centerline_to_point (env : Env) (point_geom : Q2) (rank : ℕ) :
    Except Err Centerline :=
  if rank > 100 then .error .rankTooLarge
  else
    if ((env.ranked point_geom).take 100).length = 0 then .error .noCenterlines
    else if rank ≥ ((env.ranked point_geom).take 100).length then .error .rankBeyondMatches
    else .ok (((env.ranked point_geom).take 100).getD rank ⟨0, 0, []⟩)

/-- One entry of the centerlines working dict of write_pickups: the
centerline object, the running linear-reference extrema, and the pickups
assigned so far (ops.py lines 247-254). -/
structure GroupData where
  cl : Centerline
  lr_min : ℚ
  lr_max : ℚ
  pts : List VPickup
deriving DecidableEq

/-- The centerlines working dict, as an insertion-ordered association
list keyed by centerline id, which is exactly the iteration behaviour of
a Python dict. -/
abbrev Groups : Type := List (ℕ × GroupData)

/-- Coverage of a segment group: the span of its linear references. -/
def coverage (g : GroupData) : ℚ := qsub g.lr_max g.lr_min

/-- Assignment of one matched point to the working dict (ops.py lines
246-254): a fresh key starts a singleton group with both extrema at the
point's linear reference; an existing key widens the extrema with min and
max and appends the point. -/
def addToGroups : Groups → Centerline → ℚ → VPickup → Groups
  | [], cl, lr, p => [(cl.id, ⟨cl, lr, lr, [p]⟩)]
  | (c, g) :: rest, cl, lr, p =>
    if c = cl.id then
      (c, ⟨cl, min g.lr_min lr, max g.lr_max lr, g.pts ++ [p]⟩) :: rest
    else (c, g) :: addToGroups rest cl lr p

/-- One matching pass (ops.py lines 239-254): every point still needing
work is matched to its rank-iter nearest centerline, projected onto it,
and folded into the working dict.  The first repository error aborts the
whole call, as an uncaught Python exception would. -/
def matchPoints (env : Env) (iter : ℕ) : Groups → List VPickup → Except Err Groups
  | gs, [] => .ok gs
  | gs, p :: rest =>
    match nearest_centerline_to_point env p.geometry iter with
    | .error e => .error e
    | .ok cl =>
      matchPoints env iter
        (addToGroups gs cl (env.backend.project cl.geometry p.geometry) p) rest

/-- The groups deleted by the coverage check of one pass (ops.py lines
258-264): those with span strictly below one half. -/
def rejectedGroups (gs : Groups) : Groups :=
  gs.filter (fun e => decide (coverage e.2 < covThreshold))

/-- The groups surviving the coverage check of one pass. -/
def survivingGroups (gs : Groups) : Groups :=
  gs.filter (fun e => !(decide (coverage e.2 < covThreshold)))

/-- The worklist for the next pass: the points of every rejected group,
in dict order. -/
def rejectedPoints (gs : Groups) : List VPickup :=
  (rejectedGroups gs).foldl (fun acc e => acc ++ e.2.pts) []

/-- The iterative greedy matching loop of write_pickups (ops.py lines
234-277).  The fuel argument is a modelling device for the Lean
termination checker only: it is shown below that fuel 101 is never
exhausted, because the repository refuses every rank from 100 upward, so
a pass with a nonempty worklist at iteration 100 or later aborts.  After
each pass the groups failing the coverage threshold are deleted and their
points requeued; if no group at all survives, the source raises the
invalid-run ValueError; if nothing was deleted the loop is done. -/
def matchLoop (env : Env) : ℕ → ℕ → Groups → List VPickup → Except Err Groups
  | 0, _, _, _ => .error .fuelExhausted
  | fuel + 1, iter, gs, work =>
    match matchPoints env iter gs work with
    | .error e => .error e
    | .ok gsAll =>
      if (survivingGroups gsAll).isEmpty then .error .invalidRun
      else if (rejectedGroups gsAll).isEmpty then .ok (survivingGroups gsAll)
      else matchLoop env fuel (iter + 1) (survivingGroups gsAll) (rejectedPoints gsAll)

/-- Canonicalization of a centerline's direction (ops.py lines 44-49):
when the first coordinate is north of the last, or at equal latitude east
of it, the coordinate order is reversed; otherwise it is kept. -/
def canonicalize (coords : List Q2) : List Q2 :=
  let start := coords.headD (0, 0)
  let stop := coords.getLastD (0, 0)
  if start.2 > stop.2 then coords.reverse
  else if start.2 = stop.2 ∧ start.1 > stop.1 then coords.reverse
  else coords

/-- The side-of-centerline test (ops.py lines 19-58): canonicalize the
direction, project the point, sample the canonicalized line at the linear
reference minus and plus 0.01 to form a local tangent, and take the sign
of the two-dimensional cross product.  Nonpositive means left, positive
means right. -/
def point_side_of_centerline (B : GeomBackend) (point_geom : Q2)
    (centerline_geom : List Q2) : Side :=
  let g := canonicalize centerline_geom
  let lr := B.project g point_geom
  let start_geom := B.interpolate g (qsub lr lrEps)
  let stop_geom := B.interpolate g (qadd lr lrEps)
  let d := qsub
    (qmul (qsub point_geom.1 start_geom.1) (qsub stop_geom.2 start_geom.2))
    (qmul (qsub point_geom.2 start_geom.2) (qsub stop_geom.1 start_geom.1))
  if d ≤ 0 then .left else .right

/-- Keys of a Python Counter built from the side strings: the source
looks up the integer keys 0 and 1 in a counter whose actual keys are the
side strings returned by the side test, so both key kinds must be
representable. -/
inductive PyKey
  | intKey (n : ℤ)
  | sideKey (s : Side)
deriving DecidableEq

/-- Counter lookup: the number of occurrences of the key in the list, 0
when the key does not occur at all (Python Counter semantics). -/
def counterGet (l : List PyKey) (k : PyKey) : ℕ :=
  l.countP (fun x => decide (x = k))

/-- The curb assigned to a group of fewer than three points (ops.py lines
319-323): the first caller-supplied curb among the first two pickups, and
otherwise the current value of the function-level Python variable named
curb — which was last assigned in the validation loop (to the curb of the
final pickup of the run) or by an earlier group of the inference pass, so
the fallback reproduces the stale-variable behaviour of the source and
may itself be None. -/
def smallGroupCurb (curbVar : Option Side) (pts : List VPickup) : Option Side :=
  match pts with
  | [] => curbVar
  | p0 :: rest =>
    if p0.curb ≠ none then p0.curb
    else
      match rest with
      | [p1] => if p1.curb ≠ none then p1.curb else curbVar
      | _ => curbVar

/-- The perpendicular distances of the pickups of a group to its
centerline (the dists array of the source). -/
def groupDists (env : Env) (g : GroupData) : List ℚ :=
  g.pts.map (fun p => env.backend.dist g.cl.geometry p.geometry)

/-- The geometric sides of the pickups of a group (the sides array of the
source). -/
def groupSides (env : Env) (g : GroupData) : List Side :=
  g.pts.map (fun p => point_side_of_centerline env.backend p.geometry g.cl.geometry)

/-- The curb chosen by the unimodal branch (ops.py lines 336-337): the
counter holds the side strings, the lookups use the integer keys 0 and 1,
so both counts are zero and the comparison always selects right. -/
def unimodalCurb (sides : List Side) : Side :=
  if counterGet (sides.map PyKey.sideKey) (PyKey.intKey 0) >
      counterGet (sides.map PyKey.sideKey) (PyKey.intKey 1) then .left
  else .right

/-- Curb inference for one segment group (ops.py lines 311-345).  With
fewer than three points every pickup of the group receives the
smallGroupCurb value and the function-level curb variable is updated to
it.  With at least three points the Shapiro-Wilk p-value decides between
the unimodal branch — every pickup receives the unimodalCurb and the curb
variable is updated — and the bimodal branch, which fills in only missing
curbs with the geometric side and leaves the curb variable alone. -/
def inferGroup (env : Env) (curbVar : Option Side) (g : GroupData) :
    Option Side × GroupData :=
  if g.pts.length < 3 then
    (smallGroupCurb curbVar g.pts,
      { g with pts := g.pts.map (fun p => { p with curb := smallGroupCurb curbVar g.pts }) })
  else
    if env.shapiro (groupDists env g) > pThreshold then
      (some (unimodalCurb (groupSides env g)),
        { g with
            pts := g.pts.map
              (fun p => { p with curb := some (unimodalCurb (groupSides env g)) }) })
    else
      (curbVar,
        { g with
            pts := (g.pts.zip (groupSides env g)).map
              (fun pr => if pr.1.curb = none then { pr.1 with curb := some pr.2 } else pr.1) })

/-- The ids of the groups that need curb inference (ops.py lines
305-310): those with at least one pickup whose curb is unset, in dict
insertion order (the source collects them into a set of ids; its
iteration order is modelled as insertion order). -/
def needsCurbInference (gs : Groups) : List ℕ :=
  (gs.filter (fun e => e.2.pts.any (fun p => decide (p.curb = none)))).map
    (fun e => e.1)

/-- Replaces the group with the given id by its inferred version,
threading the stale curb variable. -/
def inferAt (env : Env) (curbVar : Option Side) (c : ℕ) :
    Groups → Option Side × Groups
  | [] => (curbVar, [])
  | (c0, g) :: rest =>
    if c0 = c then
      let r := inferGroup env curbVar g
      (r.1, (c0, r.2) :: rest)
    else
      let r := inferAt env curbVar c rest
      (r.1, (c0, g) :: r.2)

/-- The whole curb-inference pass: fold over the ids needing inference,
threading the function-level curb variable through the groups. -/
def inferCurbs (env : Env) (curbVar : Option Side) (gs : Groups) : Groups :=
  ((needsCurbInference gs).foldl (fun acc c => inferAt env acc.1 c acc.2)
    (curbVar, gs)).2

/-- A pickups table row (orm.py Pickup).  The firebase-run-id column is
NOT NULL and the source reads the dict key directly, so reaching this
record requires the key to be present; the curb column is optional here
so that the NOT NULL enum constraint can be modelled at commit time. -/
structure PickupRow where
  geometry : Q2
  snapped_geometry : Q2
  centerline_id : ℕ
  firebase_id : ℕ
  firebase_run_id : ℕ
  rtype : RubbishType
  timestamp : ℤ
  linear_reference : ℚ
  curb : Option Side
deriving DecidableEq

/-- Blockface identity: the centerline id together with the curb value.
The source keys its maps by the centerline ORM object, which the session
identity map makes interchangeable with the id. -/
abbrev BfKey : Type := ℕ × Option Side

/-- Running data of one blockface during the persistence pass: the
centerline object, the pickup rows, and the linear-reference extrema
(ops.py lines 377-391; the two parallel dicts of the source are merged
into one record with the same keys and update order). -/
structure BlockfaceAgg where
  cl : Centerline
  pickups : List PickupRow
  lr_min : ℚ
  lr_max : ℚ
deriving DecidableEq

/-- Folds one pickup row into the blockface map (ops.py lines 377-391). -/
def addBlockface : List (BfKey × BlockfaceAgg) → Centerline → Option Side →
    PickupRow → ℚ → List (BfKey × BlockfaceAgg)
  | [], cl, curb, row, lr => [((cl.id, curb), ⟨cl, [row], lr, lr⟩)]
  | (k, agg) :: rest, cl, curb, row, lr =>
    if k = (cl.id, curb) then
      (k, ⟨cl, agg.pickups ++ [row], min agg.lr_min lr, max agg.lr_max lr⟩) :: rest
    else (k, agg) :: addBlockface rest cl curb row lr

/-- Builds the pickup rows of one group (ops.py lines 358-391): project
and snap each pickup, read the firebase-run-id key (raising the Python
KeyError when, never having been validated, it is absent), and fold the
row into the blockface map. -/
def buildRows (env : Env) (cl : Centerline) :
    List VPickup → List PickupRow → List (BfKey × BlockfaceAgg) →
    Except Err (List PickupRow × List (BfKey × BlockfaceAgg))
  | [], rows, bfs => .ok (rows, bfs)
  | p :: rest, rows, bfs =>
    match p.firebase_run_id with
    | none => .error .keyError
    | some rid =>
      let lr := env.backend.project cl.geometry p.geometry
      let snapped := env.backend.interpolate cl.geometry lr
      let row : PickupRow :=
        ⟨p.geometry, snapped, cl.id, p.firebase_id, rid, p.rtype, p.timestamp, lr, p.curb⟩
      buildRows env cl rest (rows ++ [row]) (addBlockface bfs cl p.curb row lr)

/-- Builds all pickup rows, group by group in dict order (ops.py lines
353-391). -/
def buildPickups (env : Env) :
    Groups → List PickupRow → List (BfKey × BlockfaceAgg) →
    Except Err (List PickupRow × List (BfKey × BlockfaceAgg))
  | [], rows, bfs => .ok (rows, bfs)
  | (_, g) :: rest, rows, bfs =>
    match buildRows env g.cl g.pts rows bfs with
    | .error e => .error e
    | .ok (rows2, bfs2) => buildPickups env rest rows2 bfs2

/-- The one-or-none query on the blockface-statistics table: none without
a matching row, the row when unique, an error when several match. -/
def one_or_none (stats : List BlockfaceStatisticRow) (cid : ℕ) (curb : Option Side) :
    Except Err (Option BlockfaceStatisticRow) :=
  match stats.filter (fun s => decide (s.centerline_id = cid) && decide (s.curb = curb)) with
  | [] => .ok none
  | [s] => .ok (some s)
  | _ => .error .multipleResults

/-- The blockface-statistics insertion loop (ops.py lines 393-429).  For
each blockface: coverage is the linear-reference span, and the Python
float divisions raise ZeroDivisionError when the span (or the centerline
length) is zero — there is no skip of small groups in the source.  With
no prior statistic a fresh row with one run is added to the session.
With a prior statistic the source computes the averaged row and binds it
to a local variable but never adds it to the session, so nothing is
accumulated in that branch. -/
def insertStats (env : Env) :
    List (BfKey × BlockfaceAgg) → List BlockfaceStatisticRow →
    Except Err (List BlockfaceStatisticRow)
  | [], added => .ok added
  | (k, agg) :: rest, added =>
    let cov := qsub agg.lr_max agg.lr_min
    if cov = qofNat 0 then .error .zeroDivision
    else
      let inferred_n_pickups := qdiv (qofNat agg.pickups.length) cov
      if agg.cl.length_in_meters = qofNat 0 then .error .zeroDivision
      else
        let inferred_pickup_density := qdiv inferred_n_pickups agg.cl.length_in_meters
        match one_or_none env.stats agg.cl.id k.2 with
        | .error e => .error e
        | .ok none =>
          insertStats env rest
            (added ++ [⟨agg.cl.id, k.2, inferred_pickup_density, 1⟩])
        | .ok (some prior) =>
          let updated_rubbish_per_meter :=
            qdiv (qadd (qmul prior.rubbish_per_meter (qofNat prior.num_runs))
                    inferred_pickup_density)
              (qofNat (prior.num_runs + 1))
          let blockface_statistic : BlockfaceStatisticRow :=
            ⟨agg.cl.id, k.2, updated_rubbish_per_meter, prior.num_runs + 1⟩
          -- ops.py line 425 constructs this record, but unlike the fresh
          -- branch above it is never passed to session.add, so the loop
          -- continues with the accumulator unchanged.
          insertStats env rest added

/-- Everything a successfully committed run persisted: the pickup rows,
the statistic rows the session added, and the resulting statistics
table. -/
structure RunResult where
  pickups : List PickupRow
  added_stats : List BlockfaceStatisticRow
  final_stats : List BlockfaceStatisticRow
deriving DecidableEq

/-- Commit of the transaction.  The curb columns of both tables are NOT
NULL enums (orm.py), so a row carrying the Python None fails the commit
and the whole run rolls back. -/
def commitRun (env : Env) (rows : List PickupRow) (added : List BlockfaceStatisticRow) :
    Except Err RunResult :=
  if rows.all (fun r => r.curb.isSome) && added.all (fun s => s.curb.isSome) then
    .ok ⟨rows, added, env.stats ++ added⟩
  else .error .notNullViolation

/-- The value of the function-level curb variable after the validation
loop (ops.py line 199 assigns it for every pickup, so it ends at the curb
of the final pickup of the run); this seeds curb inference. -/
def lastCurb (vps : List VPickup) : Option Side :=
  match vps.getLast? with
  | some v => v.curb
  | none => none

/-- The write path of the service: validation, the iterative matching
loop, curb inference seeded with the stale curb variable, row building,
the statistics loop and the commit run in sequence, any error aborting
the run with nothing persisted. -/
def write_pickups (env : Env) (now : ℤ) (pickups : List RawPickup) :
    Except Err RunResult :=
  if pickups.length = 0 then .ok ⟨[], [], env.stats⟩
  else
    match pickups.mapM (validate_pickup now) with
    | .error e => .error (.validation e)
    | .ok vps =>
      match matchLoop env 101 0 [] vps with
      | .error e => .error e
      | .ok gs =>
        match buildPickups env (inferCurbs env (lastCurb vps) gs) [] [] with
        | .error e => .error e
        | .ok (rows, bfs) =>
          match insertStats env bfs [] with
          | .error e => .error e
          | .ok added => commitRun env rows added

/-- A sectors table row (orm.py Sector); the geometry is modelled as an
axis-parallel rectangle given by its lower-left and upper-right corners,
and names are numeric tokens. -/
structure SectorRow where
  id : ℕ
  name : ℕ
  geometry : Q2 × Q2
deriving DecidableEq

/-- Point-in-rectangle test. -/
def inRect (r : Q2 × Q2) (p : Q2) : Bool :=
  decide (r.1.1 ≤ p.1) && decide (p.1 ≤ r.2.1) &&
  decide (r.1.2 ≤ p.2) && decide (p.2 ≤ r.2.2)

/-- Modelled from the spec: the polygon intersection test of the external
spatial collaborator (PostGIS ST_Intersects), specialised to rectangle
sectors and the vertices of a linestring: true when some vertex of the
linestring lies in the rectangle.  This direction of the test is exact:
a vertex inside the sector certainly makes the geometries intersect. -/
def stIntersects (geom : List Q2) (r : Q2 × Q2) : Bool :=
  geom.any (inRect r)

/-- Modelled from the spec: the polygon containment test of the external
spatial collaborator, specialised to rectangle sectors, for which a
linestring lies within the rectangle exactly when all its vertices do. -/
def stWithin (geom : List Q2) (r : Q2 × Q2) : Bool :=
  geom.all (inRect r)

/-- The environment of a sector query: the sectors, centerlines and
blockface-statistics tables. -/
structure SectorEnv where
  sectors : List SectorRow
  centerlines : List Centerline
  stats : List BlockfaceStatisticRow

/-- The sector query (ops.py lines 559-630): look the sector up by name,
keep every centerline whose geometry INTERSECTS the sector geometry (the
source calls ST_Intersects), and return the statistics of the kept
centerlines.  The returned list is the statistics content of the
response map. -/
def sector_get (env : SectorEnv) (sector_name : ℕ) :
    Except Err (List BlockfaceStatisticRow) :=
  match env.sectors.filter (fun s => decide (s.name = sector_name)) with
  | [] => .error .sectorNotFound
  | [sec] =>
    let cids := (env.centerlines.filter
      (fun c => stIntersects c.geometry sec.geometry)).map (fun c => c.id)
    .ok (env.stats.filter (fun s => decide (s.centerline_id ∈ cids)))
  | _ => .error .multipleResults

/-- Clamp of a rational to an interval. -/
def clampQ (x lo hi : ℚ) : ℚ := max lo (min x hi)

/-- Length of one polyline edge, computed as the sum of the absolute
coordinate differences.  For the axis-parallel edges used by every
concrete environment below this equals the Euclidean length that shapely
computes, since one of the two differences is zero. -/
def segLen (a b : Q2) : ℚ := qadd (qabs (qsub b.1 a.1)) (qabs (qsub b.2 a.2))

/-- The edges of a polyline: consecutive coordinate pairs. -/
def edgesOf (g : List Q2) : List (Q2 × Q2) := g.zip g.tail

/-- Total length of a polyline. -/
def polyLen (g : List Q2) : ℚ :=
  (edgesOf g).foldl (fun acc e => qadd acc (segLen e.1 e.2)) (qofNat 0)

/-- Squared Euclidean distance between two points. -/
def sqDist (p q : Q2) : ℚ :=
  qadd (qmul (qsub p.1 q.1) (qsub p.1 q.1)) (qmul (qsub p.2 q.2) (qsub p.2 q.2))

/-- Parameter in the unit interval of the point of an edge nearest to p:
the clamped orthogonal-projection parameter, 0 on a degenerate edge. -/
def edgeParam (a b p : Q2) : ℚ :=
  let dx := qsub b.1 a.1
  let dy := qsub b.2 a.2
  let len2 := qadd (qmul dx dx) (qmul dy dy)
  if len2 = qofNat 0 then qofNat 0
  else
    clampQ (qdiv (qadd (qmul (qsub p.1 a.1) dx) (qmul (qsub p.2 a.2) dy)) len2)
      (qofNat 0) (qofNat 1)

/-- The point of an edge at a parameter. -/
def edgePoint (a b : Q2) (t : ℚ) : Q2 :=
  (qadd a.1 (qmul t (qsub b.1 a.1)), qadd a.2 (qmul t (qsub b.2 a.2)))

/-- Arc length, from the start of the polyline, of the point nearest to
p: scans the edges keeping the first strict minimum of the squared
distance, as the shapely project primitive does. -/
def bestArc : List (Q2 × Q2) → Q2 → ℚ → Option (ℚ × ℚ) → ℚ
  | [], _, _, best =>
    match best with
    | some b => b.2
    | none => qofNat 0
  | e :: rest, p, off, best =>
    let t := edgeParam e.1 e.2 p
    let q := edgePoint e.1 e.2 t
    let d := sqDist p q
    let cand := qadd off (qmul t (segLen e.1 e.2))
    let keep : Option (ℚ × ℚ) :=
      match best with
      | none => some (d, cand)
      | some b => if d < b.1 then some (d, cand) else some b
    bestArc rest p (qadd off (segLen e.1 e.2)) keep

/-- Modelled from the spec: the shapely normalized project primitive of
the external geometry collaborator — the normalized arc-length position
of the point of the polyline nearest to the query point — exact for
polylines all of whose edges are axis-parallel. -/
def axisProject (g : List Q2) (p : Q2) : ℚ :=
  let total := polyLen g
  if total = qofNat 0 then qofNat 0
  else qdiv (bestArc (edgesOf g) p (qofNat 0) none) total

/-- Walks the edges consuming arc length; the final edge clamps, so that
positions beyond the end stop at the last vertex. -/
def walkInterp : List (Q2 × Q2) → ℚ → Q2
  | [], _ => (qofNat 0, qofNat 0)
  | [e], arc =>
    edgePoint e.1 e.2
      (if segLen e.1 e.2 = qofNat 0 then qofNat 0
       else clampQ (qdiv arc (segLen e.1 e.2)) (qofNat 0) (qofNat 1))
  | e :: rest, arc =>
    if arc ≤ segLen e.1 e.2 then
      edgePoint e.1 e.2
        (if segLen e.1 e.2 = qofNat 0 then qofNat 0 else qdiv arc (segLen e.1 e.2))
    else walkInterp rest (qsub arc (segLen e.1 e.2))

/-- Modelled from the spec: the shapely normalized interpolate primitive
of the external geometry collaborator — the point at a normalized
arc-length position, clamped to the ends — exact for polylines all of
whose edges are axis-parallel. -/
def axisInterpolate (g : List Q2) (t : ℚ) : Q2 :=
  walkInterp (edgesOf g) (qmul (clampQ t (qofNat 0) (qofNat 1)) (polyLen g))

/-- Modelled from the spec: concrete instance of the external shapely
primitives used by the concrete environments below.  Projection and
interpolation are the axis-parallel implementations above; the distance
field returns the absolute y coordinate, which is the exact Euclidean
point-to-line distance for the horizontal centerlines those environments
contain (the distances only feed the abstract Shapiro-Wilk parameter). -/
def axisBackend : GeomBackend :=
  ⟨axisProject, axisInterpolate, fun _ p => qabs p.2⟩

/-- Shorthand for kernel-evaluable rational literals. -/
def q (n : ℤ) (d : ℕ) : ℚ := mkRat n d

/-- The horizontal unit centerline from the origin to (1, 0), one hundred
meters long, used by the concrete environments (the same layout as the
grid of the package tests). -/
def clH : Centerline :=
  ⟨1, qofNat 100, [(qofNat 0, qofNat 0), (qofNat 1, qofNat 0)]⟩

/-- Concrete environment: one centerline, no prior statistics, the
axis-parallel shapely instance, and a Shapiro-Wilk p-value of one half
(above the 0.05 threshold, selecting the unimodal branch). -/
def envBase : Env :=
  ⟨fun _ => [clH], [], axisBackend, fun _ => q 1 2⟩

/-- Concrete environment like envBase with one prior blockface statistic
for the left curb of the centerline: density 0.025 over one run (the
first run of the two-run scenario of the spec). -/
def envPrior : Env :=
  ⟨fun _ => [clH], [⟨1, some .left, q 1 40, 1⟩], axisBackend, fun _ => q 1 2⟩

/-- An input pickup dict with every key present. -/
def rawP (fid : ℕ) (x y : ℚ) (c : CurbVal) : RawPickup :=
  ⟨some fid, some fid, some .tobacco, some 0, some c, some (.point x y)⟩

/-- An input pickup dict whose firebase-run-id key is absent; every other
key is present and valid. -/
def rawNoRun (fid : ℕ) (x y : ℚ) (c : CurbVal) : RawPickup :=
  ⟨some fid, none, some .tobacco, some 0, some c, some (.point x y)⟩

/-- The second run of the two-run averaging scenario: four pickups on the
left curb of the centerline at linear references 0.1, 0.3, 0.7 and 0.9,
so coverage 0.8, inferred count 5 and density 0.05. -/
def c1run : List RawPickup :=
  [rawP 1 (q 1 10) (qofNat 0) (.val .left),
   rawP 2 (q 3 10) (qofNat 0) (.val .left),
   rawP 3 (q 7 10) (qofNat 0) (.val .left),
   rawP 4 (q 9 10) (qofNat 0) (.val .left)]

/-- Claim C1.  The claim states that with a prior statistic for the
(segment, side) pair the persisted statistic after the run has the
averaged density and the incremented run count.  On the code this fails:
the prior-exists branch of write_pickups computes the averaged statistic
but never passes it to session.add, so the commit leaves the statistics
table unchanged.  Against the prior (density 1/40, one run) and a second
run of density 1/20, the persisted table still holds density 1/40 with
one run, not the claimed average 3/80 with two runs, and no statistic row
was added by the session. -/
theorem c1_statistic_update_not_persisted :
    (write_pickups envPrior 1000 c1run).map (fun r => r.final_stats) =
      .ok [⟨1, some .left, q 1 40, 1⟩] ∧
    (write_pickups envPrior 1000 c1run).map (fun r => r.added_stats) = .ok [] ∧
    (write_pickups envPrior 1000 c1run).map (fun r => r.final_stats) ≠
      .ok [⟨1, some .left, q 3 80, 2⟩] := by
  refine ⟨by decide, by decide, by decide⟩

/-- A run whose blockface grouping contains a one-point (segment, side)
group: two left-curb pickups spanning the centerline and one right-curb
pickup in the middle. -/
def c2run : List RawPickup :=
  [rawP 1 (q 1 10) (qofNat 0) (.val .left),
   rawP 2 (q 9 10) (qofNat 0) (.val .left),
   rawP 3 (q 1 2) (qofNat 0) (.val .right)]

/-- Claim C2.  The claim states that (segment, side) groups with fewer
than 2 points are skipped by the statistics step and that the update
completes without dividing by a zero coverage.  On the code this fails:
there is no skip, the singleton right-curb group has coverage zero, and
the Python division raises ZeroDivisionError, aborting the whole run. -/
theorem c2_singleton_group_divides_by_zero :
    write_pickups envBase 1000 c2run = .error .zeroDivision := by decide

/-- A run of three pickups with no caller-supplied curb, all north of the
centerline, i.e. all on the geometric left. -/
def c3run : List RawPickup :=
  [rawP 1 (q 1 10) (q 1 10) .null,
   rawP 2 (q 1 2) (q 1 10) .null,
   rawP 3 (q 9 10) (q 1 10) .null]

/-- Claim C3.  The claim states that in the unimodal branch every point
receives the majority geometric side by count.  On the code this fails:
the side test returns the strings left and right, while the majority
comparison looks up the integer keys 0 and 1 in the counter, so both
counts are always zero and the right side is assigned unconditionally.
Here all three points lie on the geometric left (second conjunct), the
p-value one half of the environment selects the unimodal branch, and yet
every persisted pickup receives the right side. -/
theorem c3_unimodal_branch_ignores_majority :
    (write_pickups envBase 1000 c3run).map (fun r => r.pickups.map (fun p => p.curb)) =
      .ok [some .right, some .right, some .right] ∧
    [(q 1 10, q 1 10), (q 1 2, q 1 10), (q 9 10, q 1 10)].map
      (fun p => point_side_of_centerline axisBackend p clH.geometry) =
      [.left, .left, .left] := by
  refine ⟨by decide, by decide⟩

/-- A centerline reaching from the origin to (10, 0): its first vertex
lies in the unit sector rectangle around the origin, its second far
outside. -/
def clPartial : Centerline :=
  ⟨9, qofNat 100, [(qofNat 0, qofNat 0), (qofNat 10, qofNat 0)]⟩

/-- The sector rectangle from (-1, -1) to (1, 1). -/
def secRect : Q2 × Q2 := ((q (-1) 1, q (-1) 1), (qofNat 1, qofNat 1))

/-- Sector environment: one sector named 7, the partially overlapping
centerline, and one statistic for that centerline. -/
def envSector : SectorEnv :=
  ⟨[⟨1, 7, secRect⟩], [clPartial], [⟨9, some .left, q 1 40, 1⟩]⟩

/-- Claim C5.  The claim states that the sector query returns statistics
only for segments lying entirely within the sector.  On the code this
fails: sector_get filters centerlines with ST_Intersects, so a segment
with one vertex inside the sector and one far outside — not within the
sector, as the second conjunct shows — still contributes its statistics
to the response. -/
theorem c5_sector_returns_partial_overlap :
    sector_get envSector 7 = .ok [⟨9, some .left, q 1 40, 1⟩] ∧
    stWithin clPartial.geometry secRect = false := by
  refine ⟨by decide, by decide⟩

/-- A run of two pickups that are valid in every checked respect but
whose firebase-run-id key is absent. -/
def c6run : List RawPickup :=
  [rawNoRun 1 (q 1 10) (qofNat 0) (.val .left),
   rawNoRun 2 (q 9 10) (qofNat 0) (.val .left)]

/-- Counterexample to claim C6 as stated.  The claim lists the run
identifier among the required fields whose absence raises a validation
error before matching.  On the code the validation loop checks only the
firebase-id, type, timestamp, curb and geometry keys, so a batch whose
pickups lack only the run identifier passes validation unscathed (first
conjunct) and the run instead dies much later, after matching, with the
KeyError raised when persistence reads the missing key (second
conjunct). -/
theorem c6_missing_run_id_passes_validation :
    (c6run.mapM (validate_pickup 1000)).isOk = true ∧
    write_pickups envBase 1000 c6run = .error .keyError := by
  refine ⟨by decide, by decide⟩

/-- A closed square loop: the first and last coordinates coincide at the
origin. -/
def sqLoop : List Q2 :=
  [(qofNat 0, qofNat 0), (qofNat 1, qofNat 0), (qofNat 1, qofNat 1),
   (qofNat 0, qofNat 1), (qofNat 0, qofNat 0)]

/-- Counterexample to claim C8 as stated.  The claim asserts orientation
independence for every point and every segment polyline.  For a closed
polyline both endpoints coincide, the canonicalization of the source
(which orders the endpoints south to north, ties west to east) leaves
both orientations unchanged, and the point below the bottom edge of this
square is classified right along one traversal and left along the
other. -/
theorem c8_closed_loop_changes_side :
    point_side_of_centerline axisBackend (q 1 2, q (-1) 10) sqLoop = .right ∧
    point_side_of_centerline axisBackend (q 1 2, q (-1) 10) sqLoop.reverse = .left ∧
    point_side_of_centerline axisBackend (q 1 2, q (-1) 10) sqLoop.reverse ≠
      point_side_of_centerline axisBackend (q 1 2, q (-1) 10) sqLoop := by
  refine ⟨by decide, by decide, by decide⟩

/-- Reversing the coordinate list swaps the two canonicalization anchors:
the head of the reversed list is the last of the original. -/
theorem headD_reverse_eq (l : List Q2) (d : Q2) : l.reverse.headD d = l.getLastD d := by
  rw [List.headD_eq_head?, List.getLastD_eq_getLast?, List.head?_reverse]

/-- Reversing the coordinate list swaps the two canonicalization anchors:
the last of the reversed list is the head of the original. -/
theorem getLastD_reverse_eq (l : List Q2) (d : Q2) : l.reverse.getLastD d = l.headD d := by
  rw [List.headD_eq_head?, List.getLastD_eq_getLast?, List.getLast?_reverse]

/-- The branch structure of the canonicalization, stated over two
arbitrary anchor points: when the anchors differ, exchanging their roles
and the two branch values yields the same result. -/
theorem canon_case (a b : Q2) (l : List Q2) (hne : a ≠ b) :
    (if b.2 > a.2 then l else if b.2 = a.2 ∧ b.1 > a.1 then l else l.reverse) =
    (if a.2 > b.2 then l.reverse else if a.2 = b.2 ∧ a.1 > b.1 then l.reverse else l) := by
  rcases lt_trichotomy a.2 b.2 with h1 | h1 | h1
  · rw [if_pos (show b.2 > a.2 from h1),
      if_neg (show ¬ a.2 > b.2 from not_lt.mpr h1.le),
      if_neg (show ¬ (a.2 = b.2 ∧ a.1 > b.1) from fun hc => h1.ne hc.1)]
  · have hx : a.1 ≠ b.1 := fun hc => hne (Prod.ext hc h1)
    rw [if_neg (show ¬ b.2 > a.2 from by rw [h1]; exact lt_irrefl b.2),
      if_neg (show ¬ a.2 > b.2 from by rw [h1]; exact lt_irrefl b.2)]
    rcases lt_or_gt_of_ne hx with h2 | h2
    · rw [if_pos (show b.2 = a.2 ∧ b.1 > a.1 from ⟨h1.symm, h2⟩),
        if_neg (show ¬ (a.2 = b.2 ∧ a.1 > b.1) from
          fun hc => absurd hc.2 (not_lt.mpr h2.le))]
    · rw [if_neg (show ¬ (b.2 = a.2 ∧ b.1 > a.1) from
          fun hc => absurd hc.2 (not_lt.mpr h2.le)),
        if_pos (show a.2 = b.2 ∧ a.1 > b.1 from ⟨h1, h2⟩)]
  · rw [if_neg (show ¬ b.2 > a.2 from not_lt.mpr h1.le),
      if_pos (show a.2 > b.2 from h1),
      if_neg (show ¬ (b.2 = a.2 ∧ b.1 > a.1) from fun hc => h1.ne hc.1)]

/-- As long as the two endpoints of a polyline differ, the south-to-north
(ties west-to-east) canonicalization of ops.py picks the same coordinate
order whether it starts from the stored order or from its reverse. -/
theorem canonicalize_reverse (l : List Q2)
    (hne : l.headD (0, 0) ≠ l.getLastD (0, 0)) :
    canonicalize l.reverse = canonicalize l := by
  have hh := headD_reverse_eq l (0, 0)
  have hg := getLastD_reverse_eq l (0, 0)
  simp only [canonicalize, hh, hg, List.reverse_reverse]
  exact canon_case (l.headD (0, 0)) (l.getLastD (0, 0)) l hne

/-- Claim C8 (amended): the side-of-centerline test is deterministic and
orientation independent for every polyline whose endpoints differ —
reversing the stored coordinate order never changes the result, whatever
external projection and interpolation primitives are plugged in, because
the canonicalization erases the stored orientation.  (The unamended
universal claim fails exactly on closed polylines with coinciding
endpoints; see the counterexample above.) -/
theorem c8_side_reverse_invariant (B : GeomBackend) (p : Q2) (l : List Q2)
    (hne : l.headD (0, 0) ≠ l.getLastD (0, 0)) :
    point_side_of_centerline B p l.reverse = point_side_of_centerline B p l := by
  unfold point_side_of_centerline
  rw [canonicalize_reverse l hne]

/-- Witness for claim C8: the amended theorem applied to the horizontal
unit centerline, whose endpoints differ. -/
theorem c8_witness :
    clH.geometry.headD (0, 0) ≠ clH.geometry.getLastD (0, 0) ∧
    point_side_of_centerline axisBackend (q 1 10, q 1 10) clH.geometry.reverse =
      point_side_of_centerline axisBackend (q 1 10, q 1 10) clH.geometry :=
  ⟨by decide, c8_side_reverse_invariant axisBackend (q 1 10, q 1 10) clH.geometry (by decide)⟩

/-- Claim C4.  First part: every run that write_pickups completes without
error persists only pickups whose curb is a resolved side — the commit
enforces the NOT NULL curb column of the pickups table, so a run in which
inference left a Python None (possible for a group of two unlabelled
points inheriting a stale None) never completes.  Second part: for every
group of at least three points, curb inference by itself already resolves
every curb, in both the unimodal and the bimodal branch. -/
theorem c4_completed_run_resolves_curbs :
    (∀ (env : Env) (now : ℤ) (raw : List RawPickup) (res : RunResult),
      write_pickups env now raw = .ok res →
      (res.pickups.all fun p => p.curb.isSome) = true) ∧
    (∀ (env : Env) (cv : Option Side) (g : GroupData), 3 ≤ g.pts.length →
      ((inferGroup env cv g).2.pts.all fun p => p.curb.isSome) = true) := by
  constructor
  · intro env now raw res h
    unfold write_pickups at h
    split at h
    · injection h with h2
      subst h2
      rfl
    · split at h
      · simp at h
      · split at h
        · simp at h
        · split at h
          · simp at h
          · split at h
            · simp at h
            · unfold commitRun at h
              split at h
              · rename_i hc
                injection h with h2
                subst h2
                exact (Bool.and_eq_true _ _ |>.mp hc).1
              · simp at h
  · intro env cv g hlen
    unfold inferGroup
    rw [if_neg (by omega)]
    split
    · rw [List.all_eq_true]
      intro p hp
      rw [List.mem_map] at hp
      obtain ⟨p0, -, rfl⟩ := hp
      rfl
    · rw [List.all_eq_true]
      intro p hp
      rw [List.mem_map] at hp
      obtain ⟨pr, -, rfl⟩ := hp
      rcases hc : pr.1.curb with - | s <;> simp [hc]

/-- The run of the C4 witness: two pickups on the left curb. -/
def c4run : List RawPickup :=
  [rawP 1 (q 1 10) (qofNat 0) (.val .left),
   rawP 2 (q 9 10) (qofNat 0) (.val .left)]

/-- The persisted result of the C4 witness run. -/
def c4res : RunResult :=
  ⟨[⟨(q 1 10, qofNat 0), (q 1 10, qofNat 0), 1, 1, 1, .tobacco, 0, q 1 10, some .left⟩,
    ⟨(q 9 10, qofNat 0), (q 9 10, qofNat 0), 1, 2, 2, .tobacco, 0, q 9 10, some .left⟩],
   [⟨1, some .left, q 1 40, 1⟩],
   [⟨1, some .left, q 1 40, 1⟩]⟩

/-- An unlabelled valid pickup for concrete groups. -/
def vpN (fid : ℕ) (x y : ℚ) : VPickup :=
  ⟨fid, some fid, .tobacco, 0, none, (x, y)⟩

/-- A three-point unlabelled group on the horizontal centerline. -/
def c4grp : GroupData :=
  ⟨clH, q 1 10, q 9 10, [vpN 1 (q 1 10) (q 1 10), vpN 2 (q 1 2) (q 1 10), vpN 3 (q 9 10) (q 1 10)]⟩

/-- Witness for claim C4: a concrete completed run whose persisted
pickups all carry resolved curbs, and a concrete three-point group fully
resolved by inference alone. -/
theorem c4_witness :
    write_pickups envBase 1000 c4run = .ok c4res ∧
    (c4res.pickups.all fun p => p.curb.isSome) = true ∧
    3 ≤ c4grp.pts.length ∧
    ((inferGroup envBase none c4grp).2.pts.all fun p => p.curb.isSome) = true :=
  ⟨by decide,
   c4_completed_run_resolves_curbs.1 envBase 1000 c4run c4res (by decide),
   by decide,
   c4_completed_run_resolves_curbs.2 envBase none c4grp (by decide)⟩

/-- One unfolding step of the matching loop at positive fuel. -/
theorem matchLoop_succ (env : Env) (fuel iter : ℕ) (gs : Groups) (work : List VPickup) :
    matchLoop env (fuel + 1) iter gs work =
      match matchPoints env iter gs work with
      | .error e => .error e
      | .ok gsAll =>
        if (survivingGroups gsAll).isEmpty then .error .invalidRun
        else if (rejectedGroups gsAll).isEmpty then .ok (survivingGroups gsAll)
        else matchLoop env fuel (iter + 1) (survivingGroups gsAll) (rejectedPoints gsAll) :=
  rfl

/-- Claim C7.  When the first matching pass of a nonempty validated run
leaves no segment group with coverage at least one half, write_pickups
raises the invalid-run error.  The raise happens inside the matching
loop, before any row is handed to the session and before the statistics
loop runs, so the error result carries no persisted pickups and no
statistic change — in the model an error value is exactly a rolled-back
transaction. -/
theorem c7_first_pass_low_coverage_rejects_run
    (env : Env) (now : ℤ) (raw : List RawPickup) (vps : List VPickup) (g : Groups)
    (hne : raw ≠ [])
    (hval : raw.mapM (validate_pickup now) = .ok vps)
    (hmatch : matchPoints env 0 [] vps = .ok g)
    (hcov : survivingGroups g = []) :
    write_pickups env now raw = .error .invalidRun := by
  have hloop : matchLoop env 101 0 [] vps = .error .invalidRun := by
    rw [show (101 : ℕ) = 100 + 1 from rfl, matchLoop_succ, hmatch]
    simp [hcov]
  unfold write_pickups
  rw [if_neg (fun hc => hne (List.length_eq_zero.mp hc))]
  simp only [hval, hloop]

/-- The run of the C7 witness: two pickups at linear references 0.4 and
0.6, spanning only a fifth of the centerline. -/
def c7run : List RawPickup :=
  [rawP 1 (q 2 5) (qofNat 0) (.val .left),
   rawP 2 (q 3 5) (qofNat 0) (.val .left)]

/-- The validated form of the first C7 pickup. -/
def vpA : VPickup := ⟨1, some 1, .tobacco, 0, some .left, (q 2 5, qofNat 0)⟩

/-- The validated form of the second C7 pickup. -/
def vpB : VPickup := ⟨2, some 2, .tobacco, 0, some .left, (q 3 5, qofNat 0)⟩

/-- The single group produced by the first matching pass of the C7 run:
coverage one fifth, below the threshold. -/
def c7groups : Groups := [(1, ⟨clH, q 2 5, q 3 5, [vpA, vpB]⟩)]

/-- Witness for claim C7: the concrete below-coverage scenario of the
spec, rejected with the invalid-run error. -/
theorem c7_witness :
    c7run ≠ [] ∧
    c7run.mapM (validate_pickup 1000) = .ok [vpA, vpB] ∧
    matchPoints envBase 0 [] [vpA, vpB] = .ok c7groups ∧
    survivingGroups c7groups = [] ∧
    write_pickups envBase 1000 c7run = .error .invalidRun :=
  ⟨by decide, by decide, by decide, by decide,
   c7_first_pass_low_coverage_rejects_run envBase 1000 c7run [vpA, vpB] c7groups
     (by decide) (by decide) (by decide) (by decide)⟩

/-- The conditions actually enforced by the validation loop: presence of
the five checked keys (identifier, rubbish type, timestamp, curb,
geometry — the run identifier is not among them), a point geometry, a
timestamp at most five minutes ahead of server time, a valid curb value
and a rubbish type inside the closed set. -/
def checkedOk (now : ℤ) (p : RawPickup) : Prop :=
  p.firebase_id.isSome = true ∧
  p.rtype.isSome = true ∧
  p.timestamp.isSome = true ∧
  p.curb.isSome = true ∧
  p.geometry.isSome = true ∧
  p.geometry ≠ some .notPoint ∧
  (p.timestamp.all fun t => decide (t ≤ now + 300)) = true ∧
  p.curb ≠ some .bad ∧
  (p.rtype.all fun t => decide (t ∈ RUBBISH_TYPES)) = true

instance (now : ℤ) (p : RawPickup) : Decidable (checkedOk now p) := by
  unfold checkedOk
  infer_instance

theorem except_bind_ok {ε α β : Type} (v : α) (f : α → Except ε β) :
    (Except.ok v >>= f) = f v := rfl

theorem except_bind_err {ε α β : Type} (e : ε) (f : α → Except ε β) :
    ((Except.error e : Except ε α) >>= f) = Except.error e := rfl

/-- Soundness of the validation loop: a pickup it accepts satisfies every
checked condition. -/
theorem validate_pickup_ok_checked (now : ℤ) (p : RawPickup) (vp : VPickup)
    (h : validate_pickup now p = .ok vp) : checkedOk now p := by
  rcases p with ⟨fid, rid, ty, ts, cv, geo⟩
  rcases fid with - | f
  · simp [validate_pickup] at h
  rcases ty with - | t
  · simp [validate_pickup] at h
  rcases ts with - | tsv
  · simp [validate_pickup] at h
  rcases cv with - | c
  · simp [validate_pickup] at h
  rcases geo with - | gv
  · simp [validate_pickup] at h
  rcases gv with ⟨x, y⟩ | -
  swap
  · simp [validate_pickup] at h
  rcases c with - | s | -
  · simp only [validate_pickup] at h
    split at h
    · exact absurd h (by simp)
    · rename_i hts
      split at h
      · rename_i hty
        refine ⟨rfl, rfl, rfl, rfl, rfl, by simp, ?_, by simp, ?_⟩
        · simp only [Option.all, decide_eq_true_eq]
          omega
        · simp [Option.all, hty]
      · exact absurd h (by simp)
  · simp only [validate_pickup] at h
    split at h
    · exact absurd h (by simp)
    · rename_i hts
      split at h
      · rename_i hty
        refine ⟨rfl, rfl, rfl, rfl, rfl, by simp, ?_, by simp, ?_⟩
        · simp only [Option.all, decide_eq_true_eq]
          omega
        · simp [Option.all, hty]
      · exact absurd h (by simp)
  · simp only [validate_pickup] at h
    split at h <;> exact absurd h (by simp)

/-- A batch containing a pickup that fails a checked condition never
survives the validation pass. -/
theorem mapM_validate_error (now : ℤ) (p : RawPickup) :
    ∀ (l : List RawPickup), p ∈ l → ¬ checkedOk now p →
      ∃ e, l.mapM (validate_pickup now) = (Except.error e : Except VError (List VPickup)) := by
  intro l
  induction l with
  | nil =>
    intro hmem
    cases hmem
  | cons a t ih =>
    intro hmem hbad
    cases ha : validate_pickup now a with
    | error e =>
      refine ⟨e, ?_⟩
      rw [List.mapM_cons, ha, except_bind_err]
    | ok v =>
      rcases List.mem_cons.mp hmem with rfl | hmt
      · exact absurd (validate_pickup_ok_checked now p v ha) hbad
      · obtain ⟨e, ht⟩ := ih hmt hbad
        refine ⟨e, ?_⟩
        rw [List.mapM_cons, ha, except_bind_ok, ht, except_bind_err]

/-- Claim C6 (amended).  The validation loop is sound and fail-fast for
the fields it checks: first, any pickup it accepts has the identifier,
rubbish type, timestamp, curb and geometry keys present, a point
geometry, an in-range timestamp, a valid curb and a rubbish type from the
closed set; second, a batch containing any pickup violating one of those
checked conditions makes write_pickups fail with a validation error —
raised before any matching, since only the validation stage produces
errors of that shape — so the whole run is rejected with nothing
persisted.  (The unamended claim also listed the run identifier among the
validated fields; the counterexample above shows a missing run identifier
passes validation and only dies later with a KeyError.) -/
theorem c6_validation_checked_fields :
    (∀ (now : ℤ) (p : RawPickup) (vp : VPickup),
      validate_pickup now p = .ok vp → checkedOk now p) ∧
    (∀ (env : Env) (now : ℤ) (raw : List RawPickup) (p : RawPickup),
      p ∈ raw → ¬ checkedOk now p →
      ∃ e, write_pickups env now raw = .error (.validation e)) := by
  constructor
  · exact validate_pickup_ok_checked
  · intro env now raw p hmem hbad
    obtain ⟨e, he⟩ := mapM_validate_error now p raw hmem hbad
    refine ⟨e, ?_⟩
    unfold write_pickups
    rw [if_neg (fun hc => by rw [List.length_eq_zero.mp hc] at hmem; cases hmem)]
    simp only [he]

/-- A pickup whose geometry key is absent. -/
def c6bad : RawPickup :=
  ⟨some 5, some 5, some .tobacco, some 0, some (.val .left), none⟩

/-- Witness for claim C6: a batch containing the geometry-less pickup is
rejected by validation. -/
theorem c6_witness :
    ¬ checkedOk 1000 c6bad ∧
    ∃ e, write_pickups envBase 1000 [rawP 1 (q 1 10) (qofNat 0) (.val .left), c6bad] =
      .error (.validation e) :=
  ⟨by decide,
   c6_validation_checked_fields.2 envBase 1000
     [rawP 1 (q 1 10) (qofNat 0) (.val .left), c6bad] c6bad (by decide) (by decide)⟩

/-- Folding one more matched point into the working dict keeps every
existing entry under its key, only ever widening its extrema. -/
theorem addToGroups_preserves (cl : Centerline) (lr : ℚ) (p : VPickup) :
    ∀ (gs : Groups) (c : ℕ) (g : GroupData), (c, g) ∈ gs →
      ∃ g2, (c, g2) ∈ addToGroups gs cl lr p ∧ g2.lr_min ≤ g.lr_min ∧
        g.lr_max ≤ g2.lr_max := by
  intro gs
  induction gs with
  | nil =>
    intro c g hmem
    cases hmem
  | cons e rest ih =>
    intro c g hmem
    obtain ⟨c0, g0⟩ := e
    by_cases hc : c0 = cl.id
    · simp only [addToGroups]
      rw [if_pos hc]
      rcases List.mem_cons.mp hmem with heq | hrest
      · injection heq with h1 h2
        subst h1
        subst h2
        exact ⟨⟨cl, min g.lr_min lr, max g.lr_max lr, g.pts ++ [p]⟩,
          List.mem_cons_self _ _, min_le_left _ _, le_max_left _ _⟩
      · exact ⟨g, List.mem_cons_of_mem _ hrest, le_refl _, le_refl _⟩
    · simp only [addToGroups]
      rw [if_neg hc]
      rcases List.mem_cons.mp hmem with heq | hrest
      · refine ⟨g, ?_, le_refl _, le_refl _⟩
        rw [heq]
        exact List.mem_cons_self _ _
      · obtain ⟨g2, hmem2, h1, h2⟩ := ih c g hrest
        exact ⟨g2, List.mem_cons_of_mem _ hmem2, h1, h2⟩

/-- A whole matching pass keeps every existing group entry under its key,
only ever widening its extrema. -/
theorem matchPoints_preserves (env : Env) (iter : ℕ) :
    ∀ (work : List VPickup) (gs gsOut : Groups) (c : ℕ) (g : GroupData),
      (c, g) ∈ gs → matchPoints env iter gs work = .ok gsOut →
      ∃ g2, (c, g2) ∈ gsOut ∧ g2.lr_min ≤ g.lr_min ∧ g.lr_max ≤ g2.lr_max := by
  intro work
  induction work with
  | nil =>
    intro gs gsOut c g hmem h
    injection h with h2
    subst h2
    exact ⟨g, hmem, le_refl _, le_refl _⟩
  | cons p rest ih =>
    intro gs gsOut c g hmem h
    simp only [matchPoints] at h
    split at h
    · simp at h
    · rename_i cl hn
      obtain ⟨g1, hm1, ha1, hb1⟩ :=
        addToGroups_preserves cl (env.backend.project cl.geometry p.geometry) p gs c g hmem
      obtain ⟨g2, hm2, ha2, hb2⟩ := ih _ gsOut c g1 hm1 h
      exact ⟨g2, hm2, le_trans ha2 ha1, le_trans hb1 hb2⟩

/-- Widened extrema can only increase the coverage of a group. -/
theorem coverage_mono (g g2 : GroupData) (h1 : g2.lr_min ≤ g.lr_min)
    (h2 : g.lr_max ≤ g2.lr_max) : coverage g ≤ coverage g2 := by
  unfold coverage
  rw [qsub_eq, qsub_eq]
  exact sub_le_sub h2 h1

/-- The repository query fails only with one of its three own errors. -/
theorem nearest_error_kinds (env : Env) (pg : Q2) (rank : ℕ) (e : Err)
    (h : nearest_centerline_to_point env pg rank = .error e) :
    e = .rankTooLarge ∨ e = .noCenterlines ∨ e = .rankBeyondMatches := by
  unfold nearest_centerline_to_point at h
  split at h
  · injection h with h2
    exact Or.inl h2.symm
  · split at h
    · injection h with h2
      exact Or.inr (Or.inl h2.symm)
    · split at h
      · injection h with h2
        exact Or.inr (Or.inr h2.symm)
      · simp at h

/-- A matching pass fails only with a repository error — never with the
invalid-run or fuel errors. -/
theorem matchPoints_error_kinds (env : Env) (iter : ℕ) :
    ∀ (work : List VPickup) (gs : Groups) (e : Err),
      matchPoints env iter gs work = .error e →
      e = .rankTooLarge ∨ e = .noCenterlines ∨ e = .rankBeyondMatches := by
  intro work
  induction work with
  | nil =>
    intro gs e h
    simp [matchPoints] at h
  | cons p rest ih =>
    intro gs e h
    simp only [matchPoints] at h
    split at h
    · rename_i e2 hn
      injection h with h2
      subst h2
      exact nearest_error_kinds env p.geometry iter e2 hn
    · rename_i cl hn
      exact ih _ e h

/-- Claim C10.  First part: a matching pass keeps every existing group
under its key, never shrinking its linear-reference extrema, so its
coverage never decreases — in particular a group that reached the
coverage threshold keeps it forever.  Second part: from any loop state
already containing a group at or above the threshold, the matching loop
can never fail with the invalid-run error, so total failure can only be
detected on the first pass, which starts from the empty group map. -/
theorem c10_groups_monotone_no_late_failure :
    (∀ (env : Env) (iter : ℕ) (work : List VPickup) (gs gsOut : Groups)
      (c : ℕ) (g : GroupData),
      (c, g) ∈ gs → matchPoints env iter gs work = .ok gsOut →
      ∃ g2, (c, g2) ∈ gsOut ∧ g2.lr_min ≤ g.lr_min ∧ g.lr_max ≤ g2.lr_max ∧
        coverage g ≤ coverage g2) ∧
    (∀ (env : Env) (fuel iter : ℕ) (gs : Groups) (work : List VPickup),
      (∃ c g, (c, g) ∈ gs ∧ covThreshold ≤ coverage g) →
      matchLoop env fuel iter gs work ≠ .error .invalidRun) := by
  constructor
  · intro env iter work gs gsOut c g hmem h
    obtain ⟨g2, hm, h1, h2⟩ := matchPoints_preserves env iter work gs gsOut c g hmem h
    exact ⟨g2, hm, h1, h2, coverage_mono g g2 h1 h2⟩
  · intro env fuel
    induction fuel with
    | zero =>
      intro iter gs work hex h
      simp [matchLoop] at h
    | succ f ih =>
      intro iter gs work hex h
      obtain ⟨c, g, hmem, hcov⟩ := hex
      rw [matchLoop_succ] at h
      split at h
      · rename_i e hm
        injection h with h2
        subst h2
        rcases matchPoints_error_kinds env iter work gs _ hm with h3 | h3 | h3 <;>
          exact absurd h3 (by decide)
      · rename_i gsAll hm
        obtain ⟨g2, hm2, h1x, h2x⟩ :=
          matchPoints_preserves env iter work gs gsAll c g hmem hm
        have hcov2 : covThreshold ≤ coverage g2 :=
          le_trans hcov (coverage_mono g g2 h1x h2x)
        have hsurv : (c, g2) ∈ survivingGroups gsAll := by
          rw [survivingGroups, List.mem_filter]
          refine ⟨hm2, ?_⟩
          simp [not_lt.mpr hcov2]
        have hne2 : (survivingGroups gsAll).isEmpty = false := by
          cases hq : survivingGroups gsAll with
          | nil =>
            rw [hq] at hsurv
            cases hsurv
          | cons a t => rfl
        rw [if_neg (by simp [hne2])] at h
        by_cases hrej : (rejectedGroups gsAll).isEmpty = true
        · rw [if_pos hrej] at h
          simp at h
        · rw [if_neg hrej] at h
          exact ih (iter + 1) (survivingGroups gsAll) (rejectedPoints gsAll)
            ⟨c, g2, hsurv, hcov2⟩ h

/-- A pre-existing group covering four fifths of the centerline. -/
def grpW : GroupData := ⟨clH, q 1 10, q 9 10, [vpA]⟩

/-- A loop state holding that group. -/
def c10gs : Groups := [(1, grpW)]

/-- A validated mid-segment pickup. -/
def vpMid : VPickup := ⟨3, some 3, .tobacco, 0, some .left, (q 1 2, qofNat 0)⟩

/-- The group map after matching the mid-segment pickup into the state. -/
def c10out : Groups := [(1, ⟨clH, q 1 10, q 9 10, [vpA, vpMid]⟩)]

/-- Witness for claim C10: the preservation part applied to a concrete
pass that only widens the surviving group, and the no-late-failure part
applied to a concrete state holding a covered group. -/
theorem c10_witness :
    (1, grpW) ∈ c10gs ∧
    matchPoints envBase 0 c10gs [vpMid] = .ok c10out ∧
    (∃ g2, (1, g2) ∈ c10out ∧ g2.lr_min ≤ grpW.lr_min ∧ grpW.lr_max ≤ g2.lr_max ∧
      coverage grpW ≤ coverage g2) ∧
    matchLoop envBase 101 0 c10gs [] ≠ .error .invalidRun :=
  ⟨by decide, by decide,
   c10_groups_monotone_no_late_failure.1 envBase 0 [vpMid] c10gs c10out 1 grpW
     (by decide) (by decide),
   c10_groups_monotone_no_late_failure.2 envBase 101 0 c10gs []
     ⟨1, grpW, by decide, by decide⟩⟩

/-- From rank 100 on, the repository query always fails: ranks beyond 100
are refused outright, and rank 100 itself can never be below the length
of the match list, which the source caps at 100. -/
theorem nearest_highRank (env : Env) (pg : Q2) (rank : ℕ) (h : 100 ≤ rank) :
    ∃ e, nearest_centerline_to_point env pg rank = .error e := by
  by_cases h1 : rank > 100
  · exact ⟨.rankTooLarge, by unfold nearest_centerline_to_point; rw [if_pos h1]⟩
  · by_cases h2 : ((env.ranked pg).take 100).length = 0
    · exact ⟨.noCenterlines, by
        unfold nearest_centerline_to_point
        rw [if_neg h1, if_pos h2]⟩
    · exact ⟨.rankBeyondMatches, by
        unfold nearest_centerline_to_point
        rw [if_neg h1, if_neg h2, if_pos (le_trans (List.length_take_le _ _) h)]⟩

/-- A pass over a nonempty worklist at rank 100 or beyond fails. -/
theorem matchPoints_highRank (env : Env) (iter : ℕ) (gs : Groups)
    (p : VPickup) (rest : List VPickup) (h : 100 ≤ iter) :
    ∃ e, matchPoints env iter gs (p :: rest) = .error e := by
  obtain ⟨e, he⟩ := nearest_highRank env p.geometry iter h
  exact ⟨e, by simp only [matchPoints, he]⟩

/-- A pass over a nonempty worklist can only succeed below rank 100. -/
theorem matchPoints_ok_rank (env : Env) (iter : ℕ) (gs gsOut : Groups)
    (p : VPickup) (rest : List VPickup)
    (h : matchPoints env iter gs (p :: rest) = .ok gsOut) : iter ≤ 99 := by
  by_contra hc
  obtain ⟨e, he⟩ := matchPoints_highRank env iter gs p rest (by omega)
  rw [he] at h
  exact absurd h (by simp)

/-- Group assignment only ever creates or extends nonempty point lists. -/
theorem addToGroups_ptsNE (cl : Centerline) (lr : ℚ) (p : VPickup) :
    ∀ (gs : Groups), (∀ e ∈ gs, e.2.pts ≠ []) →
      ∀ e ∈ addToGroups gs cl lr p, e.2.pts ≠ [] := by
  intro gs
  induction gs with
  | nil =>
    intro _ e he
    simp only [addToGroups] at he
    rw [List.mem_singleton] at he
    subst he
    simp
  | cons e0 rest ih =>
    intro hall e he
    obtain ⟨c0, g0⟩ := e0
    by_cases hc : c0 = cl.id
    · simp only [addToGroups] at he
      rw [if_pos hc] at he
      rcases List.mem_cons.mp he with rfl | hrest
      · simp
      · exact hall e (List.mem_cons_of_mem _ hrest)
    · simp only [addToGroups] at he
      rw [if_neg hc] at he
      rcases List.mem_cons.mp he with rfl | hrest
      · exact hall _ (List.mem_cons_self _ _)
      · exact ih (fun x hx => hall x (List.mem_cons_of_mem _ hx)) e hrest

/-- A matching pass preserves the all-groups-nonempty invariant. -/
theorem matchPoints_ptsNE (env : Env) (iter : ℕ) :
    ∀ (work : List VPickup) (gs gsOut : Groups),
      (∀ e ∈ gs, e.2.pts ≠ []) → matchPoints env iter gs work = .ok gsOut →
      ∀ e ∈ gsOut, e.2.pts ≠ [] := by
  intro work
  induction work with
  | nil =>
    intro gs gsOut hall h
    injection h with h2
    subst h2
    exact hall
  | cons p rest ih =>
    intro gs gsOut hall h
    simp only [matchPoints] at h
    split at h
    · simp at h
    · rename_i cl hn
      exact ih _ gsOut (addToGroups_ptsNE cl _ p gs hall) h

/-- Appending the point lists of nonempty groups onto an accumulator
never produces the empty list. -/
theorem foldl_append_ne :
    ∀ (l : Groups) (acc : List VPickup),
      ((l ≠ [] ∧ ∀ e ∈ l, e.2.pts ≠ []) ∨ acc ≠ []) →
      l.foldl (fun acc2 e => acc2 ++ e.2.pts) acc ≠ [] := by
  intro l
  induction l with
  | nil =>
    intro acc hd
    rcases hd with ⟨h1, -⟩ | h2
    · exact absurd rfl h1
    · simpa using h2
  | cons e t ih =>
    intro acc hd
    simp only [List.foldl_cons]
    apply ih
    right
    rcases hd with ⟨-, h1⟩ | h2
    · intro hc
      rcases List.append_eq_nil.mp hc with ⟨-, h3⟩
      exact h1 e (List.mem_cons_self _ _) h3
    · intro hc
      rcases List.append_eq_nil.mp hc with ⟨h3, -⟩
      exact h2 h3

/-- When some group was rejected, the next worklist is nonempty. -/
theorem rejectedPoints_ne (gs : Groups) (hall : ∀ e ∈ gs, e.2.pts ≠ [])
    (hr : (rejectedGroups gs).isEmpty = false) : rejectedPoints gs ≠ [] := by
  unfold rejectedPoints
  apply foldl_append_ne
  left
  constructor
  · cases hq : rejectedGroups gs with
    | nil =>
      rw [hq] at hr
      simp at hr
    | cons a t => exact List.cons_ne_nil a t
  · intro e he
    exact hall e (List.mem_filter.mp he).1

/-- Fuel adequacy of the matching loop: starting from a live worklist
with the group invariant, any two fuel budgets that both cover the
remaining ranks up to the repository ceiling produce the same result,
and that result is never the fuel-exhaustion marker.  The proof walks
the loop: a pass at rank 100 or beyond fails outright, and below that
each pass consumes one unit of both budgets. -/
theorem matchLoop_fuel_adequate (env : Env) :
    ∀ (f f2 iter : ℕ) (gs : Groups) (work : List VPickup),
      work ≠ [] → (∀ e ∈ gs, e.2.pts ≠ []) →
      101 ≤ iter + (f + 1) → 101 ≤ iter + (f2 + 1) →
      matchLoop env (f + 1) iter gs work = matchLoop env (f2 + 1) iter gs work ∧
      matchLoop env (f + 1) iter gs work ≠ .error .fuelExhausted := by
  intro f
  induction f with
  | zero =>
    intro f2 iter gs work hw hne h1 h2
    obtain ⟨p, rest, rfl⟩ : ∃ p rest, work = p :: rest := by
      cases work with
      | nil => exact absurd rfl hw
      | cons a t => exact ⟨a, t, rfl⟩
    obtain ⟨e, he⟩ := matchPoints_highRank env iter gs p rest (by omega)
    constructor
    · rw [matchLoop_succ, matchLoop_succ, he]
    · rw [matchLoop_succ, he]
      rcases matchPoints_error_kinds env iter (p :: rest) gs e he with h3 | h3 | h3 <;>
        (subst h3; simp)
  | succ f ih =>
    intro f2 iter gs work hw hne h1 h2
    obtain ⟨p, rest, rfl⟩ : ∃ p rest, work = p :: rest := by
      cases work with
      | nil => exact absurd rfl hw
      | cons a t => exact ⟨a, t, rfl⟩
    cases hm : matchPoints env iter gs (p :: rest) with
    | error e =>
      constructor
      · rw [matchLoop_succ, matchLoop_succ, hm]
      · rw [matchLoop_succ, hm]
        rcases matchPoints_error_kinds env iter (p :: rest) gs e hm with h3 | h3 | h3 <;>
          (subst h3; simp)
    | ok gsAll =>
      have hiter : iter ≤ 99 := matchPoints_ok_rank env iter gs gsAll p rest hm
      have hptsAll : ∀ e ∈ gsAll, e.2.pts ≠ [] :=
        matchPoints_ptsNE env iter (p :: rest) gs gsAll hne hm
      by_cases hs : (survivingGroups gsAll).isEmpty = true
      · have L : matchLoop env (f + 1 + 1) iter gs (p :: rest) = .error .invalidRun := by
          rw [matchLoop_succ]
          simp only [hm]
          rw [if_pos hs]
        have R : matchLoop env (f2 + 1) iter gs (p :: rest) = .error .invalidRun := by
          rw [matchLoop_succ]
          simp only [hm]
          rw [if_pos hs]
        refine ⟨L.trans R.symm, ?_⟩
        rw [L]
        simp
      · by_cases hr : (rejectedGroups gsAll).isEmpty = true
        · have L : matchLoop env (f + 1 + 1) iter gs (p :: rest) =
              .ok (survivingGroups gsAll) := by
            rw [matchLoop_succ]
            simp only [hm]
            rw [if_neg hs, if_pos hr]
          have R : matchLoop env (f2 + 1) iter gs (p :: rest) =
              .ok (survivingGroups gsAll) := by
            rw [matchLoop_succ]
            simp only [hm]
            rw [if_neg hs, if_pos hr]
          refine ⟨L.trans R.symm, ?_⟩
          rw [L]
          simp
        · obtain ⟨f2p, rfl⟩ : ∃ k, f2 = k + 1 := ⟨f2 - 1, by omega⟩
          have hrf : (rejectedGroups gsAll).isEmpty = false := by
            revert hr
            cases (rejectedGroups gsAll).isEmpty <;> simp
          have hw2 : rejectedPoints gsAll ≠ [] := rejectedPoints_ne gsAll hptsAll hrf
          have hne2 : ∀ e ∈ survivingGroups gsAll, e.2.pts ≠ [] :=
            fun e he => hptsAll e (List.mem_filter.mp he).1
          have hrec := ih f2p (iter + 1) (survivingGroups gsAll) (rejectedPoints gsAll)
            hw2 hne2 (by omega) (by omega)
          have L : matchLoop env (f + 1 + 1) iter gs (p :: rest) =
              matchLoop env (f + 1) (iter + 1) (survivingGroups gsAll)
                (rejectedPoints gsAll) := by
            rw [matchLoop_succ]
            simp only [hm]
            rw [if_neg hs, if_neg hr]
          have R : matchLoop env (f2p + 1 + 1) iter gs (p :: rest) =
              matchLoop env (f2p + 1) (iter + 1) (survivingGroups gsAll)
                (rejectedPoints gsAll) := by
            rw [matchLoop_succ]
            simp only [hm]
            rw [if_neg hs, if_neg hr]
          exact ⟨L.trans (hrec.1.trans R.symm), by rw [L]; exact hrec.2⟩

/-- Claim C9.  First part: if the first matching pass leaves no group at
the coverage threshold, the loop raises the invalid-run error within that
very first pass — the result is the same for every remaining fuel budget,
so no further iteration is ever attempted.  Second part: the loop started
the way write_pickups starts it (rank 0, empty group map) computes the
same result under every fuel budget of at least 101 and never exhausts
it: the pass at rank 100 is refused by the repository rank ceiling, so
the number of passes over a run is bounded by the ceiling. -/
theorem c9_loop_immediate_failure_and_bounded :
    (∀ (env : Env) (vps : List VPickup) (g : Groups) (fuel : ℕ),
      matchPoints env 0 [] vps = .ok g → survivingGroups g = [] →
      matchLoop env (fuel + 1) 0 [] vps = .error .invalidRun) ∧
    (∀ (env : Env) (work : List VPickup) (f f2 : ℕ), work ≠ [] →
      100 ≤ f → 100 ≤ f2 →
      matchLoop env (f + 1) 0 [] work = matchLoop env (f2 + 1) 0 [] work ∧
      matchLoop env (f + 1) 0 [] work ≠ .error .fuelExhausted) := by
  constructor
  · intro env vps g fuel hmatch hcov
    rw [matchLoop_succ]
    simp only [hmatch]
    rw [hcov]
    simp
  · intro env work f f2 hw hf hf2
    exact matchLoop_fuel_adequate env f f2 0 [] work hw (by intro e he; cases he)
      (by omega) (by omega)

/-- Witness for claim C9: the below-coverage two-point run fails in one
pass even with the minimal fuel budget, and on a one-point worklist the
loop result at the write_pickups budget of 101 agrees with a larger
budget and is not fuel exhaustion. -/
theorem c9_witness :
    matchPoints envBase 0 [] [vpA, vpB] = .ok c7groups ∧
    survivingGroups c7groups = [] ∧
    matchLoop envBase 1 0 [] [vpA, vpB] = .error .invalidRun ∧
    ([vpA] : List VPickup) ≠ [] ∧
    (matchLoop envBase 101 0 [] [vpA] = matchLoop envBase 106 0 [] [vpA] ∧
      matchLoop envBase 101 0 [] [vpA] ≠ .error .fuelExhausted) :=
  ⟨by decide, by decide,
   c9_loop_immediate_failure_and_bounded.1 envBase [vpA, vpB] c7groups 0
     (by decide) (by decide),
   by decide,
   c9_loop_immediate_failure_and_bounded.2 envBase [vpA] 100 105
     (by decide) (by decide) (by decide)⟩

end RubbishGeo
